import Mathlib

/-!
Verification development for the gangganghao-fastapi backend.

Python strings are embedded as `List Char`.  Worksheet cells are embedded as
`Option (List Char)`: `none` is a Python `None` cell, `some s` is a cell whose
value prints as `s` (cells are modelled at their string rendering, which is
what the parser exclusively works with after `str(...)`; truthiness of such a
value is emptiness of `s`).  Fallible Python code is embedded with `Option` /
explicit result types.
-/

/-- Model of Python `text.replace('\r\n', '\n')`: left-to-right,
non-overlapping replacement of the two-character pattern. -/
def replaceCRLF : List Char → List Char
  | [] => []
  | [c] => [c]
  | c :: d :: rest =>
    if c = '\r' ∧ d = '\n' then '\n' :: replaceCRLF rest
    else c :: replaceCRLF (d :: rest)

/-- Model of Python `text.replace(' ', '')`. -/
def removeSpaces (l : List Char) : List Char := l.filter (fun c => !(c == ' '))

/-- Model of Python `text.replace(' ', '').replace('\n', '')`. -/
def removeSpacesNL (l : List Char) : List Char :=
  l.filter (fun c => !(c == ' ' || c == '\n'))

/-- Model of Python `text.replace(' ', '').replace('\n', '').replace('\r', '')`. -/
def removeSpacesNLCR (l : List Char) : List Char :=
  l.filter (fun c => !(c == ' ' || c == '\n' || c == '\r'))

/-- Does `s` start with the pattern `p` (Python `s.startswith(p)`)? -/
def beginsWith : List Char → List Char → Bool
  | [], _ => true
  | _ :: _, [] => false
  | p :: ps, s :: ss => p == s && beginsWith ps ss

/-- Does the pattern `pat` occur as a contiguous run inside `s`
(Python `pat in s`)? -/
def containsList : List Char → List Char → Bool
  | s, pat =>
    match s with
    | [] => pat == []
    | _ :: rest => beginsWith pat s || containsList rest pat

/-- ASCII whitespace recognised by `re.sub(r'\s+', ' ', ...)` and `str.strip()`
(the worksheets only contain ASCII whitespace). -/
def pyIsSpace (c : Char) : Bool :=
  c == ' ' || c == '\t' || c == '\n' || c == '\r' || c == '\x0b' || c == '\x0c'

/-- Fuel-driven whitespace-run collapse; the fuel always suffices at the
input's length because every step consumes at least one character. -/
def collapseWSAux : Nat → List Char → List Char
  | 0, _ => []
  | fuel + 1, l =>
    match l with
    | [] => []
    | c :: rest =>
      if pyIsSpace c then ' ' :: collapseWSAux fuel (rest.dropWhile pyIsSpace)
      else c :: collapseWSAux fuel rest

/-- Model of `re.sub(r'\s+', ' ', text)`: every maximal whitespace run
becomes a single space. -/
def collapseWS (l : List Char) : List Char := collapseWSAux l.length l

/-- Model of Python `text.strip()`. -/
def pyStrip (l : List Char) : List Char :=
  (((l.dropWhile pyIsSpace).reverse).dropWhile pyIsSpace).reverse

/-- Full-width parentheses become ASCII ones
(`text.replace('（','(').replace('）',')')`). -/
def mapParens (l : List Char) : List Char :=
  l.map fun c => if c == '（' then '(' else if c == '）' then ')' else c

/-- `ExcelParser.normalize_text` (excel_parser.py lines 48-63): empty input is
returned as is; otherwise newline variants are unified, full-width parentheses
converted, whitespace runs collapsed to single spaces and the ends stripped. -/
def normalize_text (l : List Char) : List Char :=
  if l = [] then l
  else pyStrip (collapseWS (mapParens (replaceCRLF l)))

/-- `ExcelParser.COLUMN_MAPPING` (excel_parser.py lines 11-46), in source
order: Excel column header to database field name. -/
def COLUMN_MAPPING : List (List Char × List Char) := [
  ("项目名称".data, "project_name".data),
  ("构件".data, "component".data),
  ("部位".data, "location".data),
  ("构件名称".data, "component_name".data),
  ("编号".data, "number".data),
  ("级直\n别径".data, "level_diameter".data),
  ("级别直径".data, "level_diameter".data),
  ("钢 筋 简 图".data, "rebar_sketch".data),
  ("钢筋简图".data, "rebar_sketch".data),
  ("图形信息".data, "graph_info".data),
  ("边角结构".data, "edge_structure".data),
  ("下料\n(mm)".data, "cutting_length_mm".data),
  ("下料\r\n(mm)".data, "cutting_length_mm".data),
  ("下料(mm)".data, "cutting_length_mm".data),
  ("根 件\n数*数".data, "quantity_pieces".data),
  ("根 件\r\n数*数".data, "quantity_pieces".data),
  ("根数*件数".data, "quantity_pieces".data),
  ("总\n根 数".data, "total_quantity".data),
  ("总\r\n根 数".data, "total_quantity".data),
  ("总根数".data, "total_quantity".data),
  ("重量\n(kg)".data, "weight_kg".data),
  ("重量\r\n(kg)".data, "weight_kg".data),
  ("重量(kg)".data, "weight_kg".data),
  ("备注".data, "remark".data),
  ("编 号".data, "number".data),
  ("级 别 直 径".data, "level_diameter".data),
  ("钢筋 简 图".data, "rebar_sketch".data),
  ("边 角 结 构".data, "edge_structure".data),
  ("下 料(mm)".data, "cutting_length_mm".data),
  ("根数 件数".data, "quantity_pieces".data),
  ("根 数*件 数".data, "quantity_pieces".data),
  ("总根 数".data, "total_quantity".data),
  ("重 量(kg)".data, "weight_kg".data)
]

/-- `ExcelParser.is_graph_info_header` (excel_parser.py lines 98-108): after
removing spaces, newlines and carriage returns, does the text start with
`图形信息`? -/
def is_graph_info_header (text : List Char) : Bool :=
  if text = [] then false
  else beginsWith "图形信息".data (removeSpacesNLCR text)

/-- Body of `ExcelParser.extract_column_name` after the `\r\n` unification
(excel_parser.py lines 74-96): graph-info special case, direct key match,
match after removing spaces, match after removing spaces and newlines,
otherwise the normalized text unchanged. -/
def extractAux (normalized : List Char) : List Char :=
  if is_graph_info_header normalized then "图形信息".data
  else if COLUMN_MAPPING.any (fun kv => kv.1 == normalized) then normalized
  else
    match COLUMN_MAPPING.find? (fun kv => removeSpaces kv.1 == removeSpaces normalized) with
    | some kv => kv.1
    | none =>
      match COLUMN_MAPPING.find? (fun kv => removeSpacesNL kv.1 == removeSpacesNL normalized) with
      | some kv => kv.1
      | none => normalized

/-- `ExcelParser.extract_column_name` (excel_parser.py lines 65-96). -/
def extract_column_name (header : List Char) : List Char :=
  if header = [] then []
  else extractAux (replaceCRLF header)


/-- `ExcelParser.parse_graph_info` (excel_parser.py lines 110-117), as invoked
in the row loop where the argument may be a missing value. -/
def parse_graph_info (v : Option (List Char)) : Option (List Char) :=
  match v with
  | none => none
  | some s => if s = [] then none else some (normalize_text s)

/-- Tail after the first occurrence of `sep` (used for `text.split(sep, 1)[1]`). -/
def afterFirst (sep : Char) : List Char → List Char
  | [] => []
  | c :: r => if c == sep then r else afterFirst sep r

/-- `ExcelParser.extract_value_after_colon` (excel_parser.py lines 155-177):
the value after a full-width or ASCII colon, normalized; without a colon the
whole text, normalized. -/
def extract_value_after_colon (l : List Char) : Option (List Char) :=
  if l = [] then none
  else if l.any (fun c => c == '：') then some (normalize_text (afterFirst '：' l))
  else if l.any (fun c => c == ':') then some (normalize_text (afterFirst ':' l))
  else some (normalize_text l)

/-- The `key_fields` list of `ExcelParser.find_header_row`
(excel_parser.py line 127). -/
def KEY_FIELDS : List (List Char) := [
  "项目名称".data, "编号".data, "级别直径".data, "级直别径".data, "钢筋简图".data,
  "边角结构".data, "下料".data, "根数".data, "总根".data, "重量".data
]

/-- One cell of `find_header_row`: after unifying `\r\n` and deleting spaces,
does some key field occur in the cell text or the cell text in the key field
(excel_parser.py lines 139-146)? -/
def cellMatchesKeyField (v : List Char) : Bool :=
  let normalized := removeSpaces (replaceCRLF v)
  KEY_FIELDS.any fun k =>
    let kn := removeSpacesNL k
    containsList normalized kn || containsList kn normalized

/-- Number of cells of a row that count as key-field matches in
`find_header_row`: empty or `None`-printing cells are skipped, each other cell
counts at most once (excel_parser.py lines 130-146). -/
def rowMatchCount (row : List (Option (List Char))) : Nat :=
  row.countP fun c =>
    match c with
    | none => false
    | some v => !(v == []) && !(v == "None".data) && cellMatchesKeyField v

/-- Scan loop of `find_header_row`: first row (1-indexed) with at least 3
key-field matches; row 1 if none qualifies. -/
def findHeaderRowAux : Nat → List (List (Option (List Char))) → Nat
  | _, [] => 1
  | idx, r :: rest => if rowMatchCount r ≥ 3 then idx else findHeaderRowAux (idx + 1) rest

/-- `ExcelParser.find_header_row` (excel_parser.py lines 119-153): scans at
most the first 15 rows of the worksheet. -/
def find_header_row (ws : List (List (Option (List Char)))) : Nat :=
  findHeaderRowAux 1 (ws.take 15)

/-- Records built by the row loop: a Python dict from field-name strings to
cell values, as an insertion-ordered association list. -/
abbrev RowRecord := List (List Char × Option (List Char))

/-- Key membership of a record dict (`key in row_data`). -/
def hasKey (r : RowRecord) (k : List Char) : Bool := r.any fun kv => kv.1 == k

/-- Python dict assignment `row_data[k] = v`: overwrite in place if the key
exists, else append. -/
def dictInsert (r : RowRecord) (k : List Char) (v : Option (List Char)) : RowRecord :=
  if hasKey r k then r.map (fun kv => if kv.1 == k then (k, v) else kv)
  else r ++ [(k, v)]

/-- Value lookup of a record dict (`row_data[k]`, as an option). -/
def lookupRec (r : RowRecord) (k : List Char) : Option (Option (List Char)) :=
  (r.find? (fun kv => kv.1 == k)).map (fun kv => kv.2)

/-- The `metadata` dict of `parse_excel`: per-sheet project name and component
defaults read from cells A2 and G2 (excel_parser.py lines 213-224). -/
structure Metadata where
  projectName : Option (List Char)
  component : Option (List Char)
deriving DecidableEq

/-- Header cells of the chosen header row (excel_parser.py lines 198-204):
a truthy cell is passed through `extract_column_name`, other cells become
`None`. -/
def headersOfRow (row : List (Option (List Char))) : List (Option (List Char)) :=
  row.map fun c =>
    match c with
    | some v => if v = [] then none else some (extract_column_name v)
    | none => none

/-- One entry of the `column_index_map` construction (excel_parser.py lines
208-211): a truthy header that is a key of `COLUMN_MAPPING` contributes its
column position and database field name. -/
def colMapEntry : Nat × Option (List Char) → Option (Nat × List Char)
  | (_, none) => none
  | (i, some h) =>
    if h = [] then none
    else (COLUMN_MAPPING.find? (fun kv => kv.1 == h)).map (fun kv => (i, kv.2))

/-- The `column_index_map` of `parse_excel` (excel_parser.py lines 206-211):
column position to database field name, for truthy headers that are keys of
`COLUMN_MAPPING`. -/
def buildColumnIndexMap (headers : List (Option (List Char))) : List (Nat × List Char) :=
  headers.enum.filterMap colMapEntry

/-- Lookup `col_idx in column_index_map` / `column_index_map[col_idx]`. -/
def colMapLookup (cm : List (Nat × List Char)) (i : Nat) : Option (List Char) :=
  (cm.find? (fun p => p.1 == i)).map (fun p => p.2)

/-- One iteration of the cell loop of a data row (excel_parser.py lines
248-260): when the cell's column is mapped, the normalized cell text (with
the graph-info special case) is assigned to the field; a missing cell assigns
`None`. -/
def rowFieldsStep (cm : List (Nat × List Char)) (rd : RowRecord)
    (p : Nat × Option (List Char)) : RowRecord :=
  match colMapLookup cm p.1 with
  | none => rd
  | some fieldName =>
    let v0 : Option (List Char) :=
      match p.2 with
      | none => none
      | some s => some (normalize_text s)
    let v1 := if fieldName == "graph_info".data then parse_graph_info v0 else v0
    dictInsert rd fieldName v1

/-- The mapped-column part of one data row (excel_parser.py lines 246-260). -/
def rowFields (cm : List (Nat × List Char)) (row : List (Option (List Char))) : RowRecord :=
  row.enum.foldl (rowFieldsStep cm) []

/-- One metadata default (excel_parser.py lines 263-266): when the metadata
dict holds the key and the record does not, assign the metadata value. -/
def applyMetaKey (key : List Char) (mval : Option (List Char)) (rd : RowRecord) : RowRecord :=
  match mval with
  | some s => if hasKey rd key then rd else dictInsert rd key (some s)
  | none => rd

/-- Defaults applied after the mapped columns (excel_parser.py lines 262-270):
project name and component from the metadata, then the carried location, each
only when the key is not already present (and, for the location, when the
carried value is truthy). -/
def applyDefaults (meta : Metadata) (curLoc : Option (List Char)) (rd : RowRecord) : RowRecord :=
  let rd2 := applyMetaKey "component".data meta.component
    (applyMetaKey "project_name".data meta.projectName rd)
  match curLoc with
  | some loc =>
    if !(loc == []) && !(hasKey rd2 "location".data) then dictInsert rd2 "location".data (some loc)
    else rd2
  | none => rd2

/-- One data row of `parse_excel` (mapped columns plus defaults). -/
def buildRowData (cm : List (Nat × List Char)) (meta : Metadata) (curLoc : Option (List Char))
    (row : List (Option (List Char))) : RowRecord :=
  applyDefaults meta curLoc (rowFields cm row)

/-- Number of non-empty cells of a row (excel_parser.py line 235): cells that
are not `None` and whose stripped text is truthy. -/
def nonEmptyCount (row : List (Option (List Char))) : Nat :=
  row.countP fun c =>
    match c with
    | none => false
    | some v => !(pyStrip v == [])

/-- The first truthy cell with truthy stripped text (excel_parser.py lines
239-242), used as the location of a marker row. -/
def findLocCell (row : List (Option (List Char))) : Option (List Char) :=
  row.findSome? fun c =>
    match c with
    | none => none
    | some v => if !(v == []) && !(pyStrip v == []) then some v else none

/-- The row loop of `parse_excel` (excel_parser.py lines 227-274): a row with
exactly one non-empty cell updates the carried location and is skipped; any
other row builds a record, appended when non-empty. -/
def parseLoop (cm : List (Nat × List Char)) (meta : Metadata) :
    Option (List Char) → List (List (Option (List Char))) → List RowRecord
  | _, [] => []
  | curLoc, row :: rest =>
    if nonEmptyCount row = 1 then
      let newLoc :=
        match findLocCell row with
        | some v => some (normalize_text v)
        | none => curLoc
      parseLoop cm meta newLoc rest
    else
      let rd := buildRowData cm meta curLoc row
      if rd = [] then parseLoop cm meta curLoc rest
      else rd :: parseLoop cm meta curLoc rest

/-- The fourteen canonical database field names of the column mapping. -/
def CANONICAL_FIELDS : List (List Char) := [
  "project_name".data, "component".data, "location".data, "component_name".data,
  "number".data, "level_diameter".data, "rebar_sketch".data, "graph_info".data,
  "edge_structure".data, "cutting_length_mm".data, "quantity_pieces".data,
  "total_quantity".data, "weight_kg".data, "remark".data
]

/-- Fields whose presence alone does not make a record worth keeping
(excel_parser.py line 282). -/
def EXCLUDED_FIELDS : List (List Char) := ["project_name".data, "component".data, "location".data]

/-- The final filter of `parse_excel` (excel_parser.py lines 276-287): keep a
record only if some field outside the excluded three has a value that is not
`None`. -/
def hasRealData (r : RowRecord) : Bool :=
  r.any fun kv => !(EXCLUDED_FIELDS.any (fun e => e == kv.1)) && kv.2.isSome

/-- `ExcelParser.parse_excel` (excel_parser.py lines 179-292) on an in-memory
worksheet given as a list of rows of cells (1-indexed in the source, 0-indexed
here): header discovery, column map construction, A2/G2 metadata extraction,
the row loop from the row after the header, and the final filter. -/
def parse_excel (ws : List (List (Option (List Char)))) : List RowRecord :=
  let hIdx := find_header_row ws
  let headers := headersOfRow (ws.getD (hIdx - 1) [])
  let cm := buildColumnIndexMap headers
  let a2 := (ws.getD 1 []).getD 0 none
  let g2 := (ws.getD 1 []).getD 6 none
  let meta : Metadata :=
    { projectName :=
        match a2 with
        | some v => if v = [] then none else extract_value_after_colon v
        | none => none
      component :=
        match g2 with
        | some v => if v = [] then none else extract_value_after_colon v
        | none => none }
  (parseLoop cm meta none (ws.drop hIdx)).filter hasRealData

/-- A permission row of the RBAC store: its `permission_code`, its
`permission_name`, and the identifiers of the roles it is associated with
through `role_permission_association`. -/
structure PermRecord where
  code : List Char
  name : List Char
  roleIds : List Nat
deriving DecidableEq

/-- `check_permission` (auth/utils.py lines 37-75).  The first component is
the returned pair `(allowed, permission_name)`; the second counts the database
queries issued (the empty-role short circuit issues none, the allowed path one,
the denied paths two). -/
def check_permission (userRoles : List Nat) (permissionCode : List Char)
    (db : List PermRecord) : (Bool × Option (List Char)) × Nat :=
  if userRoles = [] then ((false, none), 0)
  else
    match db.find? (fun p => p.code == permissionCode
        && p.roleIds.any (fun r => userRoles.contains r)) with
    | some p => ((true, some p.name), 1)
    | none =>
      match db.find? (fun p => p.code == permissionCode) with
      | some pInfo => ((false, some pInfo.name), 2)
      | none => ((false, some permissionCode), 2)

/-- A `sys_page` row as touched by `update_page`. -/
structure PageRec where
  id : Nat
  pageName : List Char
  displayName : List Char
  description : Option (List Char)
deriving DecidableEq

/-- The partial-update body of `update_page`. -/
structure PageUpdate where
  displayName : Option (List Char)
  description : Option (List Char)
deriving DecidableEq

/-- Python truthiness of the pair returned by `check_permission`: a
two-element tuple is always truthy, whatever it contains. -/
def pyTruthyPair (_t : Bool × Option (List Char)) : Bool := true

/-- Outcome of the `update_page` handler. -/
inductive UpdatePageResult where
  | forbidden
  | notFound
  | ok : List PageRec → UpdatePageResult
deriving DecidableEq

/-- `update_page` (permission/routes.py lines 172-221): the handler guards
with `if not check_permission(...)`, i.e. the truthiness of the returned
tuple; then looks up the page, applies the non-`None` update fields and
commits, returning the committed table. -/
def update_page (userRoles : List Nat) (permDb : List PermRecord) (pageId : Nat)
    (upd : PageUpdate) (pages : List PageRec) : UpdatePageResult :=
  if !(pyTruthyPair (check_permission userRoles "permission:update".data permDb).1) then
    .forbidden
  else
    match pages.find? (fun p => p.id == pageId) with
    | none => .notFound
    | some _ =>
      .ok (pages.map fun p =>
        if p.id == pageId then
          { p with
            displayName := upd.displayName.getD p.displayName,
            description :=
              match upd.description with
              | some d => some d
              | none => p.description }
        else p)

/-- One item of the batch body of `create_order_item`: its `order_number` and
the remaining fourteen fields, which the handler copies into the new row
unchanged (bundled here as an uninterpreted tuple). -/
structure OrderItemReq where
  order_number : List Char
  payload : List (Option (List Char))
deriving DecidableEq

/-- A `sys_order` row as produced by `create_order_item`. -/
structure OrderRow where
  order_number : List Char
  payload : List (Option (List Char))
deriving DecidableEq

/-- The `OrderItem(...)` construction of `create_order_item` (order_list
routes.py lines 61-77): every field, the `order_number` included, is taken
from the request item. -/
def toOrderRow (it : OrderItemReq) : OrderRow := ⟨it.order_number, it.payload⟩

/-- Outcome of the batch branch of `create_order_item`. -/
inductive BatchResult where
  | badRequest
  | ok : List OrderRow → Nat → BatchResult
deriving DecidableEq

/-- The batch branch of `create_order_item` (order_list routes.py lines
55-131).  `fails` abstracts which item raises during row construction or
insert; the whole loop and the single `db.commit()` run inside one
`try`/`except` whose handler rolls the session back and raises HTTP 400, so
one failing item aborts the batch and nothing persists.  On success every
submitted row is inserted with its own client-supplied `order_number`
(`generate_order_number` is never called) and the reported count is the full
batch length. -/
def create_order_item_batch (fails : OrderItemReq → Bool) (items : List OrderItemReq)
    (db : List OrderRow) : BatchResult :=
  if items.any fails then .badRequest
  else .ok (db ++ items.map toOrderRow) items.length

/-- Strict lexicographic order on code points, the comparison a binary string
collation applies to `ORDER BY order_number DESC`. -/
def lexLt : List Char → List Char → Bool
  | [], [] => false
  | [], _ :: _ => true
  | _ :: _, [] => false
  | a :: as, b :: bs => if a = b then lexLt as bs else decide (a < b)

/-- The row delivered by `ORDER BY order_number DESC ... .first()`: the
lexicographic maximum of the filtered order numbers, if any. -/
def maxLex (l : List (List Char)) : Option (List Char) :=
  l.foldl (fun acc x =>
    match acc with
    | none => some x
    | some m => if lexLt m x then some x else some m) none

/-- The filter `func.substr(OrderItem.order_number, 1, 8) == today` applied to
the stored order numbers. -/
def ordersForDate (today : List Char) (db : List (List Char)) : List (List Char) :=
  db.filter fun o => o.take 8 == today

/-- Python `s[-3:]`: the last three characters (the whole string when it is
shorter). -/
def last3 (l : List Char) : List Char := l.drop (l.length - 3)

/-- Model of Python `int(s)` restricted to digit strings; on any other input
`int()` raises, modelled as `none` (signed and padded numeral forms do not
occur among order numbers). -/
def digitsToNat? (l : List Char) : Option Nat :=
  if !(l == []) && l.all (fun c => c.isDigit) then
    some (l.foldl (fun n c => n * 10 + (c.toNat - 48)) 0)
  else none

/-- Fuel-driven digit expansion; the fuel always suffices at `n + 1`. -/
def natDigitsAux : Nat → Nat → List Char
  | 0, _ => []
  | fuel + 1, n =>
    if n < 10 then [Char.ofNat (48 + n)]
    else natDigitsAux fuel (n / 10) ++ [Char.ofNat (48 + n % 10)]

/-- Decimal digits of a natural number, most significant first
(Python `str(n)` for a natural). -/
def natDigits (n : Nat) : List Char := natDigitsAux (n + 1) n

/-- Python `s.zfill(3)` on an unsigned numeral. -/
def zfill3 (l : List Char) : List Char :=
  if l.length ≥ 3 then l else List.replicate (3 - l.length) '0' ++ l

/-- `generate_order_number` (order_list routes.py lines 433-459), equally the
body of the `get_next_order_number` endpoint (lines 212-237): `today` is the
`YYYYMMDD` date key and `db` the stored order numbers.  The maximal stored
number sharing the 8-character date key yields its trailing three characters
parsed as an integer, incremented, zero-padded back to three digits and
appended to the date key; without such a row the sequence starts at `001`.
`none` models the `int()` failure on a non-numeric suffix. -/
def generate_order_number (today : List Char) (db : List (List Char)) : Option (List Char) :=
  match maxLex (ordersForDate today db) with
  | some m =>
    match digitsToNat? (last3 m) with
    | some n => some (today ++ zfill3 (natDigits (n + 1)))
    | none => none
  | none => some (today ++ zfill3 (natDigits 1))


theorem natDigitsAux_length_one (fuel n : Nat) (hf : 0 < fuel) (h : n < 10) :
    (natDigitsAux fuel n).length = 1 := by
  cases fuel with
  | zero => omega
  | succ f => simp [natDigitsAux, h]

theorem natDigitsAux_length_le_two (fuel n : Nat) (hf : 1 < fuel) (h : n < 100) :
    (natDigitsAux fuel n).length ≤ 2 := by
  cases fuel with
  | zero => omega
  | succ f =>
    by_cases h10 : n < 10
    · simp [natDigitsAux, h10]
    · simp only [natDigitsAux, h10, if_false, List.length_append,
        List.length_cons, List.length_nil]
      have := natDigitsAux_length_one f (n / 10) (by omega) (by omega)
      omega

theorem natDigitsAux_length_le_three (fuel n : Nat) (hf : 2 < fuel) (h : n < 1000) :
    (natDigitsAux fuel n).length ≤ 3 := by
  cases fuel with
  | zero => omega
  | succ f =>
    by_cases h10 : n < 10
    · simp [natDigitsAux, h10]
    · simp only [natDigitsAux, h10, if_false, List.length_append,
        List.length_cons, List.length_nil]
      have := natDigitsAux_length_le_two f (n / 10) (by omega) (by omega)
      omega

theorem natDigits_length_le_three (n : Nat) (h : n ≤ 999) : (natDigits n).length ≤ 3 := by
  unfold natDigits
  by_cases h10 : n < 10
  · rw [natDigitsAux_length_one (n + 1) n (by omega) h10]
    omega
  · exact natDigitsAux_length_le_three (n + 1) n (by omega) (by omega)

theorem zfill3_length (l : List Char) (h : l.length ≤ 3) : (zfill3 l).length = 3 := by
  unfold zfill3
  split
  · omega
  · simp only [List.length_append, List.length_replicate]
    omega

/-- Claim C3: a principal with an empty role set is denied with `(false, None)`
for every permission code, and no permission-name lookup query is issued. -/
theorem check_permission_empty_roles (code : List Char) (db : List PermRecord) :
    check_permission [] code db = ((false, none), 0) := by
  simp [check_permission]

/-- Claim C4: for a principal with at least one role, a permission code
present nowhere in the store is denied as `(false, code)` with the raw code as
display value; a code that exists but is attached to none of the principal's
roles is denied as `(false, name)` with that record's display name.  Both
denials issue the second, name-lookup query. -/
theorem check_permission_denied_display :
    (∀ (roles : List Nat) (code : List Char) (db : List PermRecord),
        roles ≠ [] → (∀ p ∈ db, p.code ≠ code) →
        check_permission roles code db = ((false, some code), 2))
    ∧ (∀ (roles : List Nat) (code : List Char) (db : List PermRecord) (p0 : PermRecord),
        roles ≠ [] →
        db.find? (fun p => p.code == code) = some p0 →
        (∀ p ∈ db, p.code = code → ∀ r ∈ p.roleIds, r ∉ roles) →
        check_permission roles code db = ((false, some p0.name), 2)) := by
  constructor
  · intro roles code db hr habs
    unfold check_permission
    rw [if_neg hr]
    have h1 : db.find? (fun p => p.code == code
        && p.roleIds.any (fun r => roles.contains r)) = none := by
      rw [List.find?_eq_none]
      intro p hp
      simp [habs p hp]
    have h2 : db.find? (fun p => p.code == code) = none := by
      rw [List.find?_eq_none]
      intro p hp
      simp [habs p hp]
    rw [h1, h2]
  · intro roles code db p0 hr hfind hnorole
    unfold check_permission
    rw [if_neg hr]
    have h1 : db.find? (fun p => p.code == code
        && p.roleIds.any (fun r => roles.contains r)) = none := by
      rw [List.find?_eq_none]
      intro p hp
      simp only [Bool.and_eq_true, beq_iff_eq, List.any_eq_true, not_and]
      intro hc hex
      obtain ⟨r, hrmem, hrin⟩ := hex
      exact hnorole p hp hc r hrmem (by simpa using hrin)
    rw [h1, hfind]

/-- Claim C1 (code bug): `update_page` guards with
`if not check_permission(...)` on the returned 2-tuple, which is always
truthy, so the Forbidden branch is unreachable: with an empty role set the
check reports the permission as not granted, yet the handler commits the
mutation and returns success, and no argument whatsoever makes it return
Forbidden. -/
theorem update_page_commits_despite_denied_check :
    (check_permission [] "permission:update".data []).1 = (false, none)
    ∧ update_page [] [] 1 ⟨some "X".data, none⟩ [⟨1, "home".data, "Home".data, none⟩]
        = UpdatePageResult.ok [⟨1, "home".data, "X".data, none⟩]
    ∧ (∀ (userRoles : List Nat) (permDb : List PermRecord) (pageId : Nat)
        (upd : PageUpdate) (pages : List PageRec),
        update_page userRoles permDb pageId upd pages ≠ UpdatePageResult.forbidden) := by
  refine ⟨by decide, by decide, ?_⟩
  intro u pd i up pg
  unfold update_page
  simp only [pyTruthyPair, Bool.not_true, Bool.false_eq_true, if_false]
  cases pg.find? (fun p => p.id == i) <;> simp

/-- Claim C2, counterexample: the batch branch of `create_order_item` inserts
each submitted row with its own client-supplied `order_number` (here two
different ones in one batch, so no single fresh sequencer number is
assigned), and one failing record aborts the whole batch with HTTP 400 and an
unchanged table instead of being skipped with a partial count. -/
theorem create_order_item_batch_counterexample :
    create_order_item_batch (fun _ => false)
        [⟨"20250101001".data, []⟩, ⟨"20250101777".data, []⟩] []
      = BatchResult.ok [⟨"20250101001".data, []⟩, ⟨"20250101777".data, []⟩] 2
    ∧ create_order_item_batch (fun it => it.order_number == "20250101777".data)
        [⟨"20250101001".data, []⟩, ⟨"20250101777".data, []⟩] []
      = BatchResult.badRequest := by
  constructor <;> decide

/-- Claim C2 as amended: the batch creation endpoint inserts every submitted
record with the `order_number` carried by that record in the request (the
daily sequencer is not consulted); when no record fails, the response reports
the full batch length as the created count; when any record's creation raises,
the whole batch is rolled back and the endpoint answers HTTP 400 with no row
inserted. -/
theorem create_order_item_batch_amended :
    (∀ (fails : OrderItemReq → Bool) (items : List OrderItemReq) (db : List OrderRow),
        items.any fails = false →
        create_order_item_batch fails items db
          = BatchResult.ok (db ++ items.map toOrderRow) items.length
        ∧ (items.map toOrderRow).map OrderRow.order_number
          = items.map OrderItemReq.order_number)
    ∧ (∀ (fails : OrderItemReq → Bool) (items : List OrderItemReq) (db : List OrderRow),
        items.any fails = true →
        create_order_item_batch fails items db = BatchResult.badRequest) := by
  constructor
  · intro fails items db h
    refine ⟨by simp [create_order_item_batch, h], ?_⟩
    simp [List.map_map]
    intro a _
    rfl
  · intro fails items db h
    simp [create_order_item_batch, h]

theorem create_order_item_batch_amended_witness :
    (create_order_item_batch (fun _ => false) [⟨"20250101001".data, []⟩] []
        = BatchResult.ok ([] ++ [⟨"20250101001".data, []⟩]) 1
     ∧ ([(⟨"20250101001".data, []⟩ : OrderItemReq)].map toOrderRow).map OrderRow.order_number
        = [(⟨"20250101001".data, []⟩ : OrderItemReq)].map OrderItemReq.order_number)
    ∧ create_order_item_batch (fun _ => true) [⟨"20250101001".data, []⟩] []
        = BatchResult.badRequest :=
  ⟨create_order_item_batch_amended.1 (fun _ => false) [⟨"20250101001".data, []⟩] [] (by decide),
   create_order_item_batch_amended.2 (fun _ => true) [⟨"20250101001".data, []⟩] [] (by decide)⟩

/-- Claim C5, counterexample: with `20250101999` as the maximal stored number
for the date key, the sequencer produces the 12-character `202501011000`, so
the result is not an 11-character identifier in all cases. -/
theorem generate_order_number_counterexample :
    generate_order_number "20250101".data ["20250101999".data]
      = some "202501011000".data
    ∧ ("202501011000".data).length = 12 := by
  constructor <;> decide

/-- Claim C5 as amended: with `20250101005` as the lexicographic maximum of
the stored numbers carrying the date key, the sequencer returns
`20250101006`; with no stored number for the date it returns the date key
followed by `001`; and whenever the maximal number's trailing three characters
parse to a sequence value below 999, the result is the 11-character
concatenation of the 8-character date key and the 3-digit zero-padded
successor. -/
theorem generate_order_number_spec :
    (∀ db : List (List Char),
        maxLex (ordersForDate "20250101".data db) = some "20250101005".data →
        generate_order_number "20250101".data db = some "20250101006".data)
    ∧ (∀ db : List (List Char),
        maxLex (ordersForDate "20250101".data db) = none →
        generate_order_number "20250101".data db = some "20250101001".data)
    ∧ (∀ (today : List Char) (db : List (List Char)) (m : List Char) (n : Nat),
        today.length = 8 →
        maxLex (ordersForDate today db) = some m →
        digitsToNat? (last3 m) = some n →
        n < 999 →
        generate_order_number today db = some (today ++ zfill3 (natDigits (n + 1)))
        ∧ (today ++ zfill3 (natDigits (n + 1))).length = 11) := by
  refine ⟨?_, ?_, ?_⟩
  · intro db h
    simp only [generate_order_number, h]
    decide
  · intro db h
    simp only [generate_order_number, h]
    decide
  · intro today db m n h8 hmax hdig hlt
    constructor
    · simp only [generate_order_number, hmax, hdig]
    · rw [List.length_append, h8,
        zfill3_length _ (natDigits_length_le_three _ (by omega))]

theorem generate_order_number_spec_witness :
    generate_order_number "20250101".data ["20250101005".data] = some "20250101006".data
    ∧ generate_order_number "20250101".data [] = some "20250101001".data
    ∧ (generate_order_number "20250101".data ["20250101007".data]
        = some ("20250101".data ++ zfill3 (natDigits 8))
       ∧ ("20250101".data ++ zfill3 (natDigits 8)).length = 11) :=
  ⟨generate_order_number_spec.1 ["20250101005".data] (by decide),
   generate_order_number_spec.2.1 [] (by decide),
   generate_order_number_spec.2.2 "20250101".data ["20250101007".data]
     "20250101007".data 7 (by decide) (by decide) (by decide) (by decide)⟩

theorem check_permission_denied_display_witness :
    check_permission [1] "x:y".data [] = ((false, some "x:y".data), 2)
    ∧ check_permission [1] "user:create".data
        [⟨"user:create".data, "创建用户".data, [2]⟩]
      = ((false, some "创建用户".data), 2) :=
  ⟨check_permission_denied_display.1 [1] "x:y".data [] (by decide) (by decide),
   check_permission_denied_display.2 [1] "user:create".data
     [⟨"user:create".data, "创建用户".data, [2]⟩]
     ⟨"user:create".data, "创建用户".data, [2]⟩
     (by decide) (by decide) (by decide)⟩

theorem replaceCRLF_id : ∀ {l : List Char}, '\r' ∉ l → replaceCRLF l = l
  | [], _ => rfl
  | [_], _ => rfl
  | c :: d :: rest, h => by
    have hc : c ≠ '\r' := by
      intro e
      exact h (e ▸ List.mem_cons_self c (d :: rest))
    have ht : '\r' ∉ d :: rest := fun m => h (List.mem_cons_of_mem _ m)
    simp only [replaceCRLF]
    rw [if_neg (fun hcd => hc hcd.1)]
    exact congrArg (c :: ·) (replaceCRLF_id ht)

theorem mem_removeSpaces {l : List Char} : '\r' ∈ removeSpaces l ↔ '\r' ∈ l := by
  unfold removeSpaces
  constructor
  · intro h
    exact (List.mem_filter.mp h).1
  · intro h
    exact List.mem_filter.mpr ⟨h, by decide⟩

theorem mem_removeSpacesNL {l : List Char} : '\r' ∈ removeSpacesNL l ↔ '\r' ∈ l := by
  unfold removeSpacesNL
  constructor
  · intro h
    exact (List.mem_filter.mp h).1
  · intro h
    exact List.mem_filter.mpr ⟨h, by decide⟩

theorem columnKeys_idem :
    ∀ kv ∈ COLUMN_MAPPING, '\r' ∈ kv.1 ∨ extract_column_name kv.1 = kv.1 := by
  decide

theorem extractAux_cases (x : List Char) :
    extractAux x = x
    ∨ extractAux x = "图形信息".data
    ∨ (∃ kv ∈ COLUMN_MAPPING, extractAux x = kv.1
        ∧ (removeSpaces kv.1 = removeSpaces x ∨ removeSpacesNL kv.1 = removeSpacesNL x)) := by
  unfold extractAux
  split
  · exact Or.inr (Or.inl rfl)
  · split
    · exact Or.inl rfl
    · split
      · rename_i kv heq
        have hp := List.find?_some heq
        simp only [beq_iff_eq] at hp
        exact Or.inr (Or.inr ⟨kv, List.mem_of_find?_eq_some heq, rfl, Or.inl hp⟩)
      · split
        · rename_i kv heq
          have hp := List.find?_some heq
          simp only [beq_iff_eq] at hp
          exact Or.inr (Or.inr ⟨kv, List.mem_of_find?_eq_some heq, rfl, Or.inr hp⟩)
        · exact Or.inl rfl

/-- Claim C6, counterexample: the header normalizer is not idempotent.  The
input `下料\r\r\n(mm)` keeps a `\r\n` after the left-to-right replacement and
then matches the mapping key `下料\r\n(mm)` verbatim, which a further
application rewrites to `下料\n(mm)`. -/
theorem extract_column_name_not_idem :
    extract_column_name (extract_column_name "下料\r\r\n(mm)".data)
      ≠ extract_column_name "下料\r\r\n(mm)".data := by
  decide

/-- Claim C6 as amended: the header normalizer is idempotent on every input
that contains no carriage-return character. -/
theorem extract_column_name_idem (x : List Char) (h : '\r' ∉ x) :
    extract_column_name (extract_column_name x) = extract_column_name x := by
  by_cases hx : x = []
  · subst hx
    decide
  · have hfx : extract_column_name x = extractAux x := by
      rw [extract_column_name, if_neg hx, replaceCRLF_id h]
    rcases extractAux_cases x with hc | hc | ⟨kv, hmem, hval, hmatch⟩
    · rw [hfx, hc]
      exact hfx.trans hc
    · rw [hfx, hc]
      decide
    · rw [hfx, hval]
      have hr : '\r' ∉ kv.1 := by
        intro hin
        rcases hmatch with he | he
        · exact h (mem_removeSpaces.mp (he ▸ mem_removeSpaces.mpr hin))
        · exact h (mem_removeSpacesNL.mp (he ▸ mem_removeSpacesNL.mpr hin))
      exact (columnKeys_idem kv hmem).resolve_left hr

theorem extract_column_name_idem_witness :
    '\r' ∉ "下料(mm)".data
    ∧ extract_column_name (extract_column_name "下料(mm)".data)
        = extract_column_name "下料(mm)".data :=
  ⟨by decide, extract_column_name_idem "下料(mm)".data (by decide)⟩

theorem findHeaderRowAux_all_small (l : List (List (Option (List Char)))) :
    ∀ idx, (∀ r ∈ l, rowMatchCount r < 3) → findHeaderRowAux idx l = 1 := by
  induction l with
  | nil =>
    intro idx _
    rfl
  | cons r rest ih =>
    intro idx h
    rw [findHeaderRowAux, if_neg (Nat.not_le.mpr (h r (List.mem_cons_self r rest)))]
    exact ih (idx + 1) (fun q hq => h q (List.mem_cons_of_mem _ hq))

/-- Claim C7: header discovery looks only at the first 15 rows, selects the
first row with at least 3 key-field matches (so row 3 whenever rows 1 and 2
fall short of 3 matches and row 3 reaches them), and falls back to row 1 when
no scanned row qualifies. -/
theorem find_header_row_spec :
    (∀ (r1 r2 r3 : List (Option (List Char))) (rest : List (List (Option (List Char)))),
        rowMatchCount r1 < 3 → rowMatchCount r2 < 3 → 3 ≤ rowMatchCount r3 →
        find_header_row (r1 :: r2 :: r3 :: rest) = 3)
    ∧ (∀ ws : List (List (Option (List Char))),
        (∀ r ∈ ws.take 15, rowMatchCount r < 3) → find_header_row ws = 1)
    ∧ (∀ ws : List (List (Option (List Char))),
        find_header_row ws = find_header_row (ws.take 15)) := by
  refine ⟨?_, ?_, ?_⟩
  · intro r1 r2 r3 rest h1 h2 h3
    unfold find_header_row
    simp only [List.take_succ_cons]
    rw [findHeaderRowAux, if_neg (Nat.not_le.mpr h1),
        findHeaderRowAux, if_neg (Nat.not_le.mpr h2),
        findHeaderRowAux, if_pos h3]
  · intro ws h
    exact findHeaderRowAux_all_small _ 1 h
  · intro ws
    unfold find_header_row
    rw [List.take_take]
    norm_num

theorem find_header_row_spec_witness :
    find_header_row [[some "x".data], [],
        [some "项目名称".data, some "编号".data, some "重量".data]] = 3
    ∧ find_header_row [[some "x".data]] = 1
    ∧ find_header_row [[some "x".data]]
        = find_header_row ([[some "x".data]].take 15) :=
  ⟨find_header_row_spec.1 [some "x".data] []
      [some "项目名称".data, some "编号".data, some "重量".data] []
      (by decide) (by decide) (by decide),
   find_header_row_spec.2.1 [[some "x".data]] (by decide),
   find_header_row_spec.2.2 [[some "x".data]]⟩

theorem hasKey_map_overwrite (r : RowRecord) (k k2 : List Char) (v : Option (List Char)) :
    (r.map (fun kv => if kv.1 == k then (k, v) else kv)).any (fun kv => kv.1 == k2)
      = r.any (fun kv => kv.1 == k2) := by
  induction r with
  | nil => rfl
  | cons kv rest ih =>
    simp only [List.map_cons, List.any_cons, ih]
    congr 1
    by_cases hk : (kv.1 == k) = true
    · rw [if_pos hk, eq_of_beq hk]
    · rw [if_neg hk]

theorem hasKey_dictInsert_ne (r : RowRecord) (k k2 : List Char) (v : Option (List Char))
    (hne : k ≠ k2) : hasKey (dictInsert r k v) k2 = hasKey r k2 := by
  unfold dictInsert hasKey
  split
  · exact hasKey_map_overwrite r k k2 v
  · rw [List.any_append]
    simp [beq_eq_false_iff_ne.mpr hne]

theorem hasKey_applyMetaKey_ne (key : List Char) (mval : Option (List Char))
    (rd : RowRecord) (k2 : List Char) (hne : key ≠ k2) :
    hasKey (applyMetaKey key mval rd) k2 = hasKey rd k2 := by
  cases mval with
  | none => rfl
  | some s =>
    show hasKey (if hasKey rd key then rd else dictInsert rd key (some s)) k2 = hasKey rd k2
    split
    · rfl
    · exact hasKey_dictInsert_ne rd key k2 (some s) hne

theorem lookupRec_append_self (r : RowRecord) (k : List Char) (v : Option (List Char))
    (h : hasKey r k = false) : lookupRec (r ++ [(k, v)]) k = some v := by
  induction r with
  | nil =>
    unfold lookupRec
    rw [List.nil_append, List.find?_cons_of_pos _ (by simp)]
    rfl
  | cons kv rest ih =>
    simp only [hasKey, List.any_cons, Bool.or_eq_false_iff] at h
    obtain ⟨h1, h2⟩ := h
    unfold lookupRec
    rw [List.cons_append, List.find?_cons_of_neg _ (by simp [h1])]
    exact ih h2

theorem lookupRec_dictInsert_self (r : RowRecord) (k : List Char) (v : Option (List Char))
    (h : hasKey r k = false) : lookupRec (dictInsert r k v) k = some v := by
  unfold dictInsert
  rw [if_neg (by simp [h])]
  exact lookupRec_append_self r k v h

/-- Claim C8: a row after the header with exactly one non-empty cell is not
emitted; the loop continues on the remaining rows with the carried location
replaced by the normalized sole value (so it overrides any earlier marker and
is what later rows inherit); and a data row whose mapped fields do not include
a location receives the carried location as its `location` value. -/
theorem parseLoop_location_spec :
    (∀ (cm : List (Nat × List Char)) (meta : Metadata) (loc : Option (List Char))
        (row : List (Option (List Char))) (rest : List (List (Option (List Char))))
        (v : List Char),
        nonEmptyCount row = 1 → findLocCell row = some v →
        parseLoop cm meta loc (row :: rest)
          = parseLoop cm meta (some (normalize_text v)) rest)
    ∧ (∀ (cm : List (Nat × List Char)) (meta : Metadata)
        (row : List (Option (List Char))) (l : List Char),
        l ≠ [] → hasKey (rowFields cm row) "location".data = false →
        lookupRec (buildRowData cm meta (some l) row) "location".data = some (some l)) := by
  constructor
  · intro cm meta loc row rest v h1 h2
    rw [parseLoop, if_pos h1, h2]
  · intro cm meta row l hl hnk
    unfold buildRowData applyDefaults
    have h2 : hasKey (applyMetaKey "component".data meta.component
        (applyMetaKey "project_name".data meta.projectName (rowFields cm row)))
          "location".data = false := by
      rw [hasKey_applyMetaKey_ne _ _ _ _ (by decide),
          hasKey_applyMetaKey_ne _ _ _ _ (by decide)]
      exact hnk
    simp only []
    rw [if_pos (by simp [h2, hl])]
    exact lookupRec_dictInsert_self _ _ _ h2

theorem parseLoop_location_spec_witness :
    parseLoop [] ⟨none, none⟩ none [[some "一区".data], []]
      = parseLoop [] ⟨none, none⟩ (some (normalize_text "一区".data)) [[]]
    ∧ lookupRec (buildRowData [] ⟨none, none⟩ (some "一区".data) []) "location".data
      = some (some "一区".data) :=
  ⟨parseLoop_location_spec.1 [] ⟨none, none⟩ none [some "一区".data] [[]]
      "一区".data (by decide) (by decide),
   parseLoop_location_spec.2 [] ⟨none, none⟩ [] "一区".data (by decide) (by decide)⟩

/-- Claim C9: a record in which every field outside project name, component
and location is `None` is never part of the extractor's output. -/
theorem parse_excel_drops_metadata_only (ws : List (List (Option (List Char))))
    (r : RowRecord) (h : ∀ kv ∈ r, kv.1 ∈ EXCLUDED_FIELDS ∨ kv.2 = none) :
    r ∉ parse_excel ws := by
  intro hmem
  unfold parse_excel at hmem
  obtain ⟨-, hreal⟩ := List.mem_filter.mp hmem
  unfold hasRealData at hreal
  rw [List.any_eq_true] at hreal
  obtain ⟨kv, hkv, hp⟩ := hreal
  rw [Bool.and_eq_true] at hp
  obtain ⟨hnex, hsome⟩ := hp
  rcases h kv hkv with hex | hnone
  · have hany : EXCLUDED_FIELDS.any (fun e => e == kv.1) = true :=
      List.any_eq_true.mpr ⟨kv.1, hex, by simp⟩
    rw [hany] at hnex
    simp at hnex
  · rw [hnone] at hsome
    simp at hsome

theorem parse_excel_drops_metadata_only_witness :
    [(("project_name".data : List Char), (some "x".data : Option (List Char)))]
      ∉ parse_excel [] :=
  parse_excel_drops_metadata_only []
    [("project_name".data, some "x".data)] (by decide)

theorem columnMapping_values_canonical :
    ∀ kv ∈ COLUMN_MAPPING, kv.2 ∈ CANONICAL_FIELDS := by
  decide

theorem buildColumnIndexMap_values_canonical (headers : List (Option (List Char))) :
    ∀ p ∈ buildColumnIndexMap headers, p.2 ∈ CANONICAL_FIELDS := by
  intro p hp
  unfold buildColumnIndexMap at hp
  rw [List.mem_filterMap] at hp
  obtain ⟨q, hq, heq⟩ := hp
  obtain ⟨i, hv⟩ := q
  cases hv with
  | none => simp [colMapEntry] at heq
  | some h =>
    simp only [colMapEntry] at heq
    by_cases hh : h = []
    · rw [if_pos hh] at heq
      simp at heq
    · rw [if_neg hh] at heq
      rw [Option.map_eq_some'] at heq
      obtain ⟨kv, hfind, hkv⟩ := heq
      have := columnMapping_values_canonical kv (List.mem_of_find?_eq_some hfind)
      rw [← hkv]
      exact this

theorem colMapLookup_canonical (headers : List (Option (List Char))) (i : Nat)
    (f : List Char) (h : colMapLookup (buildColumnIndexMap headers) i = some f) :
    f ∈ CANONICAL_FIELDS := by
  unfold colMapLookup at h
  rw [Option.map_eq_some'] at h
  obtain ⟨p, hp, hpf⟩ := h
  rw [← hpf]
  exact buildColumnIndexMap_values_canonical headers p (List.mem_of_find?_eq_some hp)

theorem keys_dictInsert (P : List Char → Prop) (r : RowRecord) (k : List Char)
    (v : Option (List Char)) (hr : ∀ kv ∈ r, P kv.1) (hk : P k) :
    ∀ kv ∈ dictInsert r k v, P kv.1 := by
  intro kv hkv
  unfold dictInsert at hkv
  split at hkv
  · rw [List.mem_map] at hkv
    obtain ⟨kv0, hkv0, heq⟩ := hkv
    by_cases hb : (kv0.1 == k) = true
    · rw [if_pos hb] at heq
      rw [← heq]
      exact hk
    · rw [if_neg hb] at heq
      rw [← heq]
      exact hr kv0 hkv0
  · rw [List.mem_append] at hkv
    rcases hkv with hin | hin
    · exact hr kv hin
    · rw [List.mem_singleton] at hin
      rw [hin]
      exact hk

theorem keys_rowFieldsStep (P : List Char → Prop) (cm : List (Nat × List Char))
    (hcm : ∀ i f, colMapLookup cm i = some f → P f)
    (rd : RowRecord) (p : Nat × Option (List Char)) (hrd : ∀ kv ∈ rd, P kv.1) :
    ∀ kv ∈ rowFieldsStep cm rd p, P kv.1 := by
  unfold rowFieldsStep
  cases hlk : colMapLookup cm p.1 with
  | none => exact hrd
  | some f => exact keys_dictInsert P rd f _ hrd (hcm p.1 f hlk)

theorem keys_rowFields_foldl (P : List Char → Prop) (cm : List (Nat × List Char))
    (hcm : ∀ i f, colMapLookup cm i = some f → P f) :
    ∀ (l : List (Nat × Option (List Char))) (acc : RowRecord),
      (∀ kv ∈ acc, P kv.1) → ∀ kv ∈ l.foldl (rowFieldsStep cm) acc, P kv.1 := by
  intro l
  induction l with
  | nil =>
    intro acc hacc
    simpa using hacc
  | cons p rest ih =>
    intro acc hacc
    rw [List.foldl_cons]
    exact ih _ (keys_rowFieldsStep P cm hcm acc p hacc)

theorem keys_applyMetaKey (P : List Char → Prop) (key : List Char)
    (mval : Option (List Char)) (rd : RowRecord) (hrd : ∀ kv ∈ rd, P kv.1)
    (hk : P key) : ∀ kv ∈ applyMetaKey key mval rd, P kv.1 := by
  cases mval with
  | none => exact hrd
  | some s =>
    show ∀ kv ∈ (if hasKey rd key then rd else dictInsert rd key (some s)), P kv.1
    split
    · exact hrd
    · exact keys_dictInsert P rd key (some s) hrd hk

theorem keys_applyDefaults (P : List Char → Prop) (meta : Metadata)
    (curLoc : Option (List Char)) (rd : RowRecord) (hrd : ∀ kv ∈ rd, P kv.1)
    (hpn : P "project_name".data) (hcp : P "component".data)
    (hloc : P "location".data) :
    ∀ kv ∈ applyDefaults meta curLoc rd, P kv.1 := by
  unfold applyDefaults
  have h2 := keys_applyMetaKey P "component".data meta.component _
    (keys_applyMetaKey P "project_name".data meta.projectName rd hrd hpn) hcp
  cases curLoc with
  | none => exact h2
  | some loc =>
    simp only []
    split
    · exact keys_dictInsert P _ _ _ h2 hloc
    · exact h2

theorem keys_buildRowData (cm : List (Nat × List Char)) (meta : Metadata)
    (curLoc : Option (List Char)) (row : List (Option (List Char)))
    (hcm : ∀ i f, colMapLookup cm i = some f → f ∈ CANONICAL_FIELDS) :
    ∀ kv ∈ buildRowData cm meta curLoc row, kv.1 ∈ CANONICAL_FIELDS := by
  unfold buildRowData
  exact keys_applyDefaults _ meta curLoc _
    (keys_rowFields_foldl _ cm hcm row.enum [] (by simp))
    (by decide) (by decide) (by decide)

theorem parseLoop_mem (cm : List (Nat × List Char)) (meta : Metadata) :
    ∀ (rows : List (List (Option (List Char)))) (loc : Option (List Char))
      (r : RowRecord), r ∈ parseLoop cm meta loc rows →
      ∃ loc2 row, r = buildRowData cm meta loc2 row := by
  intro rows
  induction rows with
  | nil =>
    intro loc r hr
    simp [parseLoop] at hr
  | cons row rest ih =>
    intro loc r hr
    rw [parseLoop] at hr
    split at hr
    · exact ih _ r hr
    · simp only [] at hr
      split at hr
      · exact ih _ r hr
      · rw [List.mem_cons] at hr
        rcases hr with hr | hr
        · exact ⟨loc, row, hr⟩
        · exact ih _ r hr

/-- Claim C10: every key of every record emitted by the extractor is one of
the fourteen canonical field names of the column mapping; an unmapped column
header never contributes a key. -/
theorem parse_excel_keys_canonical (ws : List (List (Option (List Char))))
    (r : RowRecord) (kv : List Char × Option (List Char))
    (hr : r ∈ parse_excel ws) (hkv : kv ∈ r) : kv.1 ∈ CANONICAL_FIELDS := by
  unfold parse_excel at hr
  have hr2 := (List.mem_filter.mp hr).1
  obtain ⟨loc2, row, hreq⟩ := parseLoop_mem _ _ _ _ _ hr2
  rw [hreq] at hkv
  exact keys_buildRowData _ _ _ _ (colMapLookup_canonical _) kv hkv

theorem parse_excel_keys_canonical_witness :
    (("number".data, (some "7".data : Option (List Char))) :
        List Char × Option (List Char)).1 ∈ CANONICAL_FIELDS :=
  parse_excel_keys_canonical
    [[some "项目名称".data, some "编号".data, some "重量(kg)".data],
     [some "P".data, some "7".data, some "8".data]]
    [("project_name".data, some "P".data), ("number".data, some "7".data),
     ("weight_kg".data, some "8".data)]
    ("number".data, some "7".data) (by decide) (by decide)
